import Mathlib

/-!
Verification of the school-data enrichment pipeline
(src/data_augmentation.py and src/Data_Augumentation/data_scrap.py).

The Python code is shallowly embedded: pure text processing (regex
heuristics, filtering, merging) becomes executable Lean functions over
`String`/`List Char`; external collaborators (the HTTP fetch layer, the
HTML parser and the phonenumbers library) are modelled as explicit
parameters or data (an `Option`-valued fetch environment, a page record
with pre-extracted text, a phone-matching oracle), following the spec's
declaration that these are black-box capabilities.
-/

/-! ### Basic character classes and Python string primitives -/

/-- Python whitespace characters (`str.strip`, `\s`) restricted to ASCII. -/
def isPyWs (c : Char) : Bool :=
  c = ' ' || c = '\t' || c = '\n' || c = '\r' || c = '\x0b' || c = '\x0c'

/-- Regex word character `\w` (ASCII): letters, digits, underscore. -/
def isWordChar (c : Char) : Bool :=
  c.isAlphanum || c = '_'

/-- Python `str.strip()`: drop leading and trailing whitespace. -/
def pyStrip (s : String) : String :=
  ⟨((s.data.dropWhile isPyWs).reverse.dropWhile isPyWs).reverse⟩

/-- Helper for `pyTitle`: the boolean records whether the previous
character was cased (alphabetic). -/
def pyTitleAux : Bool → List Char → List Char
  | _, [] => []
  | prevCased, c :: rest =>
    if c.isAlpha then
      (if prevCased then c.toLower else c.toUpper) :: pyTitleAux true rest
    else
      c :: pyTitleAux false rest

/-- Python `str.title()`: uppercase each letter that follows a non-letter,
lowercase the other letters. -/
def pyTitle (s : String) : String :=
  ⟨pyTitleAux false s.data⟩

/-- Python `str.lower()` (ASCII case folding, as applied by the code to
ASCII keys and keywords). -/
def toLowerStr (s : String) : String :=
  ⟨s.data.map Char.toLower⟩

/-- Python `str.replace("\n", " ")`. -/
def replaceNl (s : String) : String :=
  ⟨s.data.map (fun c => if c = '\n' then ' ' else c)⟩

/-- Split at every occurrence of a separator character, keeping empty
fragments (Python `str.split(sep)` for a one-character separator). -/
def charSplit (sep : Char) : List Char → List (List Char)
  | [] => [[]]
  | c :: rest =>
    let r := charSplit sep rest
    if c = sep then [] :: r
    else
      match r with
      | h :: t => (c :: h) :: t
      | [] => [[c]]

/-- Python `s.split(sep)` for a one-character separator, as strings. -/
def strSplit (sep : Char) (s : String) : List String :=
  (charSplit sep s.data).map fun w => (⟨w⟩ : String)

/-- `startsWithL pat cs`: `pat` is a leading segment of `cs` (exact). -/
def startsWithL : List Char → List Char → Bool
  | [], _ => true
  | _ :: _, [] => false
  | p :: ps, c :: cs => p == c && startsWithL ps cs

/-- `startsWithCIL pat cs`: `pat` is a leading segment of `cs`,
case-insensitively (regex `re.I` on an escaped literal). -/
def startsWithCIL : List Char → List Char → Bool
  | [], _ => true
  | _ :: _, [] => false
  | p :: ps, c :: cs => p.toLower == c.toLower && startsWithCIL ps cs

/-- Python `pat in hay` substring containment. -/
def containsStr (hay pat : String) : Bool :=
  (List.range (hay.data.length + 1)).any fun i => startsWithL pat.data (hay.data.drop i)

/-- Is the character at index `i` a regex word character (out of range
counts as not)? -/
def wordAt (cs : List Char) (i : Nat) : Bool :=
  match cs.get? i with
  | some c => isWordChar c
  | none => false

/-- Regex word boundary `\b` between positions `i-1` and `i` (positions
outside the text count as non-word). -/
def boundary (cs : List Char) (i : Nat) : Bool :=
  (if i = 0 then false else wordAt cs (i - 1)) != wordAt cs i

/-- Helper for `pyWords`: structural scan with an accumulator holding the
current (reversed) word. -/
def pyWordsAux : List Char → List Char → List (List Char)
  | [], acc => if acc.isEmpty then [] else [acc.reverse]
  | c :: rest, acc =>
    if isPyWs c then
      if acc.isEmpty then pyWordsAux rest [] else acc.reverse :: pyWordsAux rest []
    else
      pyWordsAux rest (c :: acc)

/-- Python `str.split()` with no argument: split on whitespace runs,
dropping empty fragments. -/
def pyWords (cs : List Char) : List (List Char) :=
  pyWordsAux cs []

/-! ### Email regex

Embedding of `re.findall(r"\b[A-Za-z0-9._%+-]+@[A-Za-z0-9.-]+\.[A-Z|a-z]{2,}\b", text)`
with Python's leftmost, greedy-with-backtracking, non-overlapping semantics.
-/

/-- Character class of the local part `[A-Za-z0-9._%+-]`. -/
def isLocalChar (c : Char) : Bool :=
  c.isAlphanum || c = '.' || c = '_' || c = '%' || c = '+' || c = '-'

/-- Character class of the domain part `[A-Za-z0-9.-]`. -/
def isDomainChar (c : Char) : Bool :=
  c.isAlphanum || c = '.' || c = '-'

/-- Character class of the final label `[A-Z|a-z]` (the `|` inside the
class is a literal). -/
def isTldChar (c : Char) : Bool :=
  c.isAlpha || c = '|'

/-- Try to match the email regex at index `i` of `cs`; return the index
one past the match on success.  The greedy `[...]+@` admits no effective
backtracking (`@` is outside the class), so the local part is the maximal
run followed directly by `@`.  After `@`, the engine maximises the domain
run before the literal dot, then the final label, subject to the trailing
word boundary. -/
def emailMatchAt (cs : List Char) (i : Nat) : Option Nat :=
  if !boundary cs i then none
  else
    let lrun := ((cs.drop i).takeWhile isLocalChar).length
    if lrun = 0 then none
    else if (cs.get? (i + lrun)) ≠ some '@' then none
    else
      let afterAt := i + lrun + 1
      let drun := ((cs.drop afterAt).takeWhile isDomainChar).length
      ((List.range drun).reverse.findSome? fun d =>
        if 1 ≤ d ∧ cs.get? (afterAt + d) = some '.' then
          let afterDot := afterAt + d + 1
          let trun := ((cs.drop afterDot).takeWhile isTldChar).length
          (List.range (trun + 1)).reverse.findSome? fun t =>
            if 2 ≤ t ∧ boundary cs (afterDot + t) = true then some (afterDot + t)
            else none
        else none)

/-- Left-to-right, non-overlapping scan collecting every match of the
email regex (Python `re.findall`). -/
def findEmailsAux (cs : List Char) : Nat → Nat → List String
  | 0, _ => []
  | fuel + 1, i =>
    if cs.length ≤ i then []
    else
      match emailMatchAt cs i with
      | some j => (⟨(cs.drop i).take (j - i)⟩ : String) :: findEmailsAux cs fuel j
      | none => findEmailsAux cs fuel (i + 1)

/-- All email matches in a text, in order. -/
def findEmails (cs : List Char) : List String :=
  findEmailsAux cs (cs.length + 1) 0

/-- The social-domain substrings an email must not contain
(`data_augmentation.py` line 99, `data_scrap.py` line 126). -/
def socialEmailDomains : List String := ["facebook.com", "twitter.com"]

/-- First extracted email whose lowercase form contains no social-domain
substring; empty string when none qualifies. -/
def firstEmail (text : String) : String :=
  match (findEmails text.data).find?
      (fun e => !(socialEmailDomains.any fun d => containsStr (toLowerStr e) d)) with
  | some e => e
  | none => ""

/-! ### Phone extraction

`re.split(r"[\/,]", text)` followed by `phonenumbers.PhoneNumberMatcher`
per fragment.  The phonenumbers library is an external capability (spec
section 1); it is modelled by an oracle `pm : String -> Option String`
returning the internationally formatted first match of a fragment.
-/

/-- Split a character list at every `/` or `,` (Python `re.split`,
keeping empty fragments). -/
def splitFrags : List Char → List (List Char)
  | [] => [[]]
  | c :: rest =>
    let r := splitFrags rest
    if c = '/' || c = ',' then [] :: r
    else
      match r with
      | h :: t => (c :: h) :: t
      | [] => [[c]]

/-- The `Tel` loop: fragments are scanned in order; the first fragment
whose matcher yields a truthy (non-empty) formatted number wins. -/
def firstTel (pm : String → Option String) (text : String) : String :=
  (splitFrags text.data).foldl
    (fun tel frag =>
      if tel = "" then
        match pm (⟨frag⟩ : String) with
        | some t => t
        | none => ""
      else tel)
    ""

/-! ### Line-based heuristics shared by both extractor variants -/

/-- `[line.strip() for line in text.split("\n") if line.strip()]`. -/
def splitLines (text : String) : List String :=
  ((strSplit '\n' text).map pyStrip).filter (fun l => l ≠ "")

/-- `re.search(r"\d{1,4}.*(STATE)", line, re.I)`: some digit occurs
strictly before a case-insensitive occurrence of the state literal. -/
def hasDigitThenState (st cs : List Char) : Bool :=
  (List.range (cs.length + 1)).any fun j =>
    ((cs.take j).any Char.isDigit) && startsWithCIL st (cs.drop j)

/-- The guard `state_ut and re.search(...)` of the address-candidate test
(`data_augmentation.py` line 115, `data_scrap.py` lines 144-148): the
empty region hint is falsy, so no line can qualify. -/
def addressCand (state : String) (line : String) : Bool :=
  (state ≠ "") && hasDigitThenState state.data line.data

/-- `re.search(r"\b(district|dist|dt\.?)\b", line, re.I)`: existence of a
word-boundary-delimited keyword.  For the `dt.` form, the regex `\b`
after an optional matched dot requires a word character to follow the
dot; otherwise backtracking drops the dot and the boundary is checked
after `dt`. -/
def districtKeywordSearch (cs : List Char) : Bool :=
  (List.range (cs.length + 1)).any fun i =>
    boundary cs i && (
      (startsWithCIL "district".data (cs.drop i) && boundary cs (i + 8)) ||
      (startsWithCIL "dist".data (cs.drop i) && boundary cs (i + 4)) ||
      (startsWithCIL "dt".data (cs.drop i) &&
        (boundary cs (i + 2) || (cs.get? (i + 2) == some '.' && wordAt cs (i + 3)))))

/-! ### The two boilerplate-stripping substitutions (`re.sub` with
replacement `""`): leftmost scan, alternatives tried in pattern order,
continue after each deleted match. -/

/-- Characters of the class `[:\s-]`. -/
def isColonWsDash (c : Char) : Bool :=
  c = ':' || isPyWs c || c = '-'

/-- Match length at the head of `cs` for the rich pattern
`(?i)district[:\s-]*|opening of the new|reg|government of|india`
(`data_augmentation.py` line 127), alternatives in order. -/
def subAtRich (cs : List Char) : Option Nat :=
  if startsWithCIL "district".data cs then
    some (8 + ((cs.drop 8).takeWhile isColonWsDash).length)
  else if startsWithCIL "opening of the new".data cs then some 18
  else if startsWithCIL "reg".data cs then some 3
  else if startsWithCIL "government of".data cs then some 13
  else if startsWithCIL "india".data cs then some 5
  else none

/-- Match length at the head of `cs` for the simple pattern
`(?i)district[:\s-]*` (`data_scrap.py` line 153). -/
def subAtSimple (cs : List Char) : Option Nat :=
  if startsWithCIL "district".data cs then
    some (8 + ((cs.drop 8).takeWhile isColonWsDash).length)
  else none

/-- `re.sub(pattern, "", s)` driven by a head-match function; every
alternative consumes at least one character, so fuel `length + 1`
suffices. -/
def reSubDel (matchAt : List Char → Option Nat) : Nat → List Char → List Char
  | 0, cs => cs
  | _ + 1, [] => []
  | fuel + 1, c :: rest =>
    match matchAt (c :: rest) with
    | some n => reSubDel matchAt fuel ((c :: rest).drop n)
    | none => c :: reSubDel matchAt fuel rest

/-- Rich boilerplate removal (`data_augmentation.py` line 127). -/
def boilerplateSubRich (cs : List Char) : List Char :=
  reSubDel subAtRich (cs.length + 1) cs

/-- Simple boilerplate removal (`data_scrap.py` line 153). -/
def boilerplateSubSimple (cs : List Char) : List Char :=
  reSubDel subAtSimple (cs.length + 1) cs

/-! ### District fallback regex `(.+?),?\s*STATE` (`data_augmentation.py`
line 133): leftmost search with a lazy group, so the match starts at
index 0 and group 1 is the shortest non-empty head for which the tail
matches. -/

/-- `\s*STATE` matches a leading segment of `cs`: skip some (not
necessarily maximal) whitespace, then the state literal
case-insensitively. -/
def wsThenState (st : List Char) : List Char → Bool
  | [] => startsWithCIL st []
  | c :: r => startsWithCIL st (c :: r) || (isPyWs c && wsThenState st r)

/-- `,?\s*STATE` matches a leading segment of `cs`. -/
def commaWsStateAt (st : List Char) (cs : List Char) : Bool :=
  wsThenState st cs ||
    (match cs with
     | ',' :: r => wsThenState st r
     | _ => false)

/-- `re.search(r"(.+?),?\s*STATE", line, re.I)` group 1: the shortest
non-empty head of the line whose remainder begins with `,?\s*STATE`. -/
def fallbackGroup1 (st : String) (line : String) : Option String :=
  match (List.range (line.data.length + 1)).find?
      (fun k => decide (1 ≤ k) && commaWsStateAt st.data (line.data.drop k)) with
  | some k => some (⟨line.data.take k⟩ : String)
  | none => none

/-! ### The Field Extractor (`extract_info`), both variants -/

/-- `PageInfo`: the partial extraction record, each field either a value
or the empty-string sentinel. -/
structure Info where
  District : String
  Address : String
  Tel : String
  Email : String
deriving Repr, DecidableEq

/-- The all-empty record `{"District": "", "Address": "", "Tel": "", "Email": ""}`. -/
def emptyInfo : Info :=
  { District := "", Address := "", Tel := "", Email := "" }

/-- Rich-policy `SchoolDataScraper.extract_info`
(`data_augmentation.py` lines 93-138).  `pm` is the phonenumbers oracle.
The found district line is non-empty because `splitLines` drops empty
lines, so `if district:` coincides with the `find?` being `some`. -/
def extract_info (pm : String → Option String) (text : String) (state_ut : String) : Info :=
  let email := firstEmail text
  let tel := firstTel pm text
  let lines := splitLines text
  let address_candidates := lines.filter (fun l => addressCand state_ut l)
  let address := address_candidates.headD ""
  let district :=
    match lines.find? (fun l => districtKeywordSearch l.data) with
    | some line =>
      let d : String := ⟨boilerplateSubRich line.data⟩
      let parts := ((strSplit ',' d).map pyStrip).filter (fun p => p ≠ "")
      match parts.getLast? with
      | some p => pyTitle p
      | none => ""
    | none =>
      match address_candidates with
      | [] => ""
      | addr_line :: _ =>
        match fallbackGroup1 state_ut addr_line with
        | some g => pyTitle (pyStrip (((strSplit ',' g).getLast?).getD ""))
        | none => ""
  { District := district, Address := address, Tel := tel, Email := email }

/-- One step of the simple-policy address/district line loop
(`data_scrap.py` lines 142-154): the pair carries (Address, District). -/
def simpleLineStep (state_ut : String) (ad : String × String) (line : String) : String × String :=
  let a := if ad.1 = "" && addressCand state_ut line then line else ad.1
  let d :=
    if ad.2 = "" && containsStr (toLowerStr line) "district" && decide (line.length < 100) then
      pyTitle (pyStrip (⟨boilerplateSubSimple line.data⟩ : String))
    else ad.2
  (a, d)

/-- Simple-policy `SchoolDataScraper.extract_info`
(`data_scrap.py` lines 117-156). -/
def extract_info_simple (pm : String → Option String) (text : String) (state_ut : String) : Info :=
  let email := firstEmail text
  let tel := firstTel pm text
  let lines := splitLines text
  let ad := lines.foldl (simpleLineStep state_ut) ("", "")
  { District := ad.2, Address := ad.1, Tel := tel, Email := email }

/-! ### The Page Scraper (`scrape_school_info`, `data_augmentation.py`
lines 140-177)

The HTTP client and the HTML parser are external collaborators; a
successfully fetched and parsed page is modelled by `Page` (the
structured location element's joined text, the block-separated visible
text, and the hyperlinks with the outcome of fetching each one).  A
transport error, non-2xx response or parse failure on the main page is
`none`; the same on a subpage is `none` in `Subpage.fetched`.
-/

/-- A hyperlink of the main page together with the extracted text of the
page it points to (`none`: fetching or parsing it failed). -/
structure Subpage where
  href : String
  fetched : Option String
deriving Repr, DecidableEq

/-- A fetched and parsed main page. -/
structure Page where
  locText : Option String
  text : String
  links : List Subpage
deriving Repr, DecidableEq

/-- Path keywords selecting contact-like subpages
(`data_augmentation.py` line 159). -/
def contactKinds : List String := ["contact", "about", "reach-us", "address"]

/-- `any(k in page.lower() for k in [...])`. -/
def isContactLink (href : String) : Bool :=
  contactKinds.any fun k => containsStr (toLowerStr href) k

/-- The per-field first-non-empty-wins merge
`if not info[key] and val: info[key] = val` (`data_augmentation.py`
lines 167-169, and the identical cross-URL loop at lines 202-204). -/
def mergeInfo (info new : Info) : Info :=
  { District := if info.District = "" && new.District ≠ "" then new.District else info.District
    Address := if info.Address = "" && new.Address ≠ "" then new.Address else info.Address
    Tel := if info.Tel = "" && new.Tel ≠ "" then new.Tel else info.Tel
    Email := if info.Email = "" && new.Email ≠ "" then new.Email else info.Email }

/-- `SchoolDataScraper.scrape_school_info` (`data_augmentation.py` lines
140-177).  Note line 154: `info.update(self.extract_info(text, state_ut))`
is a plain `dict.update` whose argument carries all four keys, so every
field — including an Address taken from the structured location element
at line 151 — is unconditionally overwritten by the Field Extractor's
result. -/
def scrape_school_info (pm : String → Option String) (fetched : Option Page)
    (state_ut : String) : Info :=
  match fetched with
  | none => emptyInfo
  | some page =>
    let info0 := emptyInfo
    let info1 :=
      match page.locText with
      | some a => { info0 with Address := a }
      | none => info0
    let e := extract_info pm page.text state_ut
    let info2 := { info1 with District := e.District, Address := e.Address,
                              Tel := e.Tel, Email := e.Email }
    page.links.foldl
      (fun acc sp =>
        if isContactLink sp.href then
          match sp.fetched with
          | some t => mergeInfo acc (extract_info pm t state_ut)
          | none => acc
        else acc)
      info2

/-! ### The Website Search (`search_school_websites`,
`data_augmentation.py` lines 59-91)

One attempt of the HTTP POST to the search service either raises (a
transport error or, via `raise_for_status`, a non-2xx response) or
returns a parsed JSON body whose `organic` entries carry the ranked
links; an absent `organic` key behaves exactly like an empty list.
-/

/-- Outcome of one search request. -/
inductive SearchAttempt where
  | fail
  | ok (organic : List String)
deriving Repr, DecidableEq

/-- The denylist (`data_augmentation.py` line 67). -/
def blacklist : List String := ["indiastudychannel.com"]

/-- A link is kept when truthy, free of denylisted substrings, and
http(s)-schemed (lines 77-80). -/
def qualifies (link : String) : Bool :=
  (link ≠ "") && !(blacklist.any fun bad => containsStr link bad) &&
    (startsWithL "http://".data link.data || startsWithL "https://".data link.data)

/-- The collection loop (lines 74-82): append qualifying links in order,
break as soon as five are gathered. -/
def collectWebsites : List String → List String → List String
  | [], acc => acc
  | link :: rest, acc =>
    let acc1 := if qualifies link then acc ++ [link] else acc
    if acc1.length = 5 then acc1 else collectWebsites rest acc1

/-- `SchoolDataScraper.search_school_websites` over a fixed trace of
attempt outcomes (one entry per loop iteration, at most `retries` of
them): a failed attempt falls through to the next one, and so does a
successful attempt whose response yields no qualifying links; only a
non-empty collection returns early. -/
def search_school_websites : List SearchAttempt → List String
  | [] => []
  | .fail :: rest => search_school_websites rest
  | .ok organic :: rest =>
    let websites := collectWebsites organic []
    if websites ≠ [] then websites else search_school_websites rest

/-- The per-attempt outcome used to characterise the retry loop: `some`
exactly when the request succeeded and produced at least one qualifying
link. -/
def attemptOutcome : SearchAttempt → Option (List String)
  | .fail => none
  | .ok organic =>
    let websites := collectWebsites organic []
    if websites ≠ [] then some websites else none

/-! ### Rows, the duplicate check and the Enrichment Orchestrator
(`data_augmentation.py` lines 50-57 and 179-238)

A roster row / checkpoint record is a Python dict with string keys and
string values, modelled as an association list with unique keys; lookup
with a default mirrors `dict.get(k, "")`, and `setKey` mirrors item
assignment / `dict.update` of one key.  Input rows are required to carry
the `School` and `State/UT` columns (spec section 6).
-/

/-- A record: ordered key-value pairs of a Python dict. -/
abbrev Row := List (String × String)

/-- `record.get(k, "")`. -/
def rowGet (r : Row) (k : String) : String :=
  match r.find? (fun p => p.1 == k) with
  | some p => p.2
  | none => ""

/-- `record[k] = v`: replace the value at an existing key, append the
pair otherwise. -/
def setKey (r : Row) (k v : String) : Row :=
  if r.any (fun p => p.1 == k) then
    r.map (fun p => if p.1 == k then (k, v) else p)
  else
    r ++ [(k, v)]

/-- `record.update(dict-of-pairs)`. -/
def rowUpdate (r : Row) (updates : List (String × String)) : Row :=
  updates.foldl (fun acc kv => setKey acc kv.1 kv.2) r

/-- The normalization applied by the duplicate check on each side of the
comparison: `.strip().lower()` (`data_augmentation.py` lines 53-54). -/
def normKey (s : String) : String :=
  toLowerStr (pyStrip s)

/-- Modelled from the spec: the identity key described by the words
"case-insensitive, whitespace-collapsed", i.e. Python
`" ".join(s.split()).lower()`; stated only to compare the spec's claimed
key with the one the code computes. -/
def wsCollapseKey (s : String) : String :=
  toLowerStr (String.intercalate " " ((pyWords s.data).map fun w => (⟨w⟩ : String)))

/-- `SchoolDataScraper.is_already_processed` (`data_augmentation.py`
lines 50-57). -/
def is_already_processed (processed : List Row) (school_name state_ut : String) : Bool :=
  processed.any fun record =>
    normKey (rowGet record "School") == normKey school_name &&
    normKey (rowGet record "State/UT") == normKey state_ut

/-- `str(row_data["School"]).replace("\n", " ").strip()` (line 180). -/
def rowSchool (row : Row) : String :=
  pyStrip (replaceNl (rowGet row "School"))

/-- `str(row_data["State/UT"]).replace("\n", " ").strip()` (line 181). -/
def rowState (row : Row) : String :=
  pyStrip (replaceNl (rowGet row "State/UT"))

/-- The five enrichment columns initialised at line 190. -/
def enrichmentFields : List String :=
  ["Website", "District", "Address", "Tel", "Email"]

/-- `SchoolDataScraper.process_school` (`data_augmentation.py` lines
179-211) as a transformer of the in-memory checkpoint list.  The two
network-dependent calls are supplied as environments: `attempts` is the
trace consumed by `search_school_websites` for this row, and `fetchEnv`
gives the fetch outcome for each candidate URL.  The JSON mirroring
(`save_to_json`) and the inter-row sleep are I/O beyond the embedding. -/
def process_school (pm : String → Option String) (attempts : List SearchAttempt)
    (fetchEnv : String → Option Page) (processed : List Row) (row : Row) : List Row :=
  let school_name := rowSchool row
  let state_ut := rowState row
  if is_already_processed processed school_name state_ut then processed
  else
    let record := rowUpdate row
      [("Website", ""), ("District", ""), ("Address", ""), ("Tel", ""), ("Email", "")]
    match search_school_websites attempts with
    | [] => processed ++ [record]
    | w :: ws =>
      let record := setKey record "Website" w
      let merged := (w :: ws).foldl
        (fun m url => mergeInfo m (scrape_school_info pm (fetchEnv url) state_ut))
        emptyInfo
      let record := rowUpdate record
        [("District", merged.District), ("Address", merged.Address),
         ("Tel", merged.Tel), ("Email", merged.Email)]
      processed ++ [record]

/-- The row loop of `SchoolDataScraper.run` (`data_augmentation.py`
lines 222-232) over the enumerated input rows, threading the checkpoint
list and recording the index of every row actually handed to
`process_school` (rows with `index < start_index` are skipped by
`continue`).  `searchEnv` supplies the search-attempt trace per row
index. -/
def runLoop (pm : String → Option String) (searchEnv : Nat → List SearchAttempt)
    (fetchEnv : String → Option Page) (start_index : Nat) :
    Nat → List Row → List Row × List Nat → List Row × List Nat
  | _, [], st => st
  | index, row :: rest, st =>
    if index < start_index then
      runLoop pm searchEnv fetchEnv start_index (index + 1) rest st
    else
      runLoop pm searchEnv fetchEnv start_index (index + 1) rest
        (process_school pm (searchEnv index) fetchEnv st.1 row, st.2 ++ [index])

/-- `SchoolDataScraper.run` (`data_augmentation.py` lines 213-238): the
resume point is `start_index = len(self.processed_data)`, a pure count
of prior checkpoint records.  Returns the final checkpoint list and the
indices of the processed rows. -/
def run (pm : String → Option String) (searchEnv : Nat → List SearchAttempt)
    (fetchEnv : String → Option Page) (initProcessed : List Row)
    (rows : List Row) : List Row × List Nat :=
  runLoop pm searchEnv fetchEnv initProcessed.length 0 rows (initProcessed, [])

/-! ### Dictionary lemmas -/


theorem rowGet_map_ne (r : Row) (k v k' : String) (hk : k' ≠ k) :
    rowGet (r.map (fun p => if p.1 == k then (k, v) else p)) k' = rowGet r k' := by
  induction r with
  | nil => rfl
  | cons p rest ih =>
    by_cases hp : p.1 = k
    · have h1 : (p.1 == k) = true := by simpa using hp
      have h2 : (p.1 == k') = false := by simp [hp]; exact fun h => hk h.symm
      simp only [List.map_cons, if_pos h1, rowGet]
      rw [List.find?_cons_of_neg _ (by simp; exact fun h => hk h.symm),
          List.find?_cons_of_neg _ (by simpa using h2)]
      exact ih
    · have h1 : (p.1 == k) = false := by simpa using hp
      simp only [List.map_cons, if_neg (by simp [hp] : ¬((p.1 == k) = true)), rowGet]
      by_cases hp' : p.1 = k'
      · rw [List.find?_cons_of_pos _ (by simpa using hp'), List.find?_cons_of_pos _ (by simpa using hp')]
      · rw [List.find?_cons_of_neg _ (by simpa using hp'), List.find?_cons_of_neg _ (by simpa using hp')]
        exact ih

theorem rowGet_map_eq (r : Row) (k v : String) (h : r.any (fun p => p.1 == k) = true) :
    rowGet (r.map (fun p => if p.1 == k then (k, v) else p)) k = v := by
  induction r with
  | nil => simp at h
  | cons p rest ih =>
    by_cases hp : p.1 = k
    · simp only [List.map_cons, if_pos (by simpa using hp : (p.1 == k) = true), rowGet]
      rw [List.find?_cons_of_pos _ (by simp)]
    · have h' : rest.any (fun p => p.1 == k) = true := by
        simp only [List.any_cons, Bool.or_eq_true] at h
        rcases h with h | h
        · exact absurd (by simpa using h) hp
        · exact h
      simp only [List.map_cons, if_neg (by simp [hp] : ¬((p.1 == k) = true)), rowGet]
      rw [List.find?_cons_of_neg _ (by simpa using hp)]
      simpa [rowGet] using ih h'

theorem rowGet_append_single (r : Row) (k v k' : String) :
    rowGet (r ++ [(k, v)]) k' =
      if (r.find? (fun p => p.1 == k')).isSome then rowGet r k'
      else if k' = k then v else "" := by
  simp only [rowGet, List.find?_append]
  cases hf : r.find? (fun p => p.1 == k') with
  | some p => simp [Option.orElse]
  | none =>
    simp only [Option.isSome_none, Bool.false_eq_true, if_false, Option.none_orElse]
    by_cases hk : k' = k
    · simp [List.find?, hk]
    · have hke : (k == k') = false := by
        simp only [beq_eq_false_iff_ne, ne_eq]
        exact fun h => hk h.symm
      simp [List.find?, hke, if_neg hk]

theorem rowGet_setKey (r : Row) (k v k' : String) :
    rowGet (setKey r k v) k' = if k' = k then v else rowGet r k' := by
  unfold setKey
  split
  · rename_i h
    by_cases hk : k' = k
    · subst hk
      rw [rowGet_map_eq r k' v h, if_pos rfl]
    · rw [rowGet_map_ne r k v k' hk, if_neg hk]
  · rename_i h
    have hany : r.any (fun p => p.1 == k) = false := by
      cases hx : r.any (fun p => p.1 == k) with
      | false => rfl
      | true => exact absurd hx h
    rw [rowGet_append_single]
    by_cases hk : k' = k
    · subst hk
      have : r.find? (fun p => p.1 == k') = none := by
        rw [List.find?_eq_none]
        intro p hp
        simp only [List.any_eq_true] at hany
        by_contra hc
        have : r.any (fun p => p.1 == k') = true := List.any_eq_true.mpr ⟨p, hp, by simpa using hc⟩
        simp [this] at hany
      simp [this]
    · cases hf : r.find? (fun p => p.1 == k') with
      | some p => simp [hf, if_neg hk]
      | none => simp [hf, if_neg hk, rowGet]

/-! ### Merge lemmas -/

/-- A field-wise monotonicity relation: every non-empty field of `m`
survives unchanged into `m'`. -/
def keepsNonempty (m m' : Info) : Prop :=
  (m.District ≠ "" → m'.District = m.District) ∧
  (m.Address ≠ "" → m'.Address = m.Address) ∧
  (m.Tel ≠ "" → m'.Tel = m.Tel) ∧
  (m.Email ≠ "" → m'.Email = m.Email)

theorem keepsNonempty_refl (m : Info) : keepsNonempty m m :=
  ⟨fun _ => rfl, fun _ => rfl, fun _ => rfl, fun _ => rfl⟩

theorem keepsNonempty_trans {a b c : Info}
    (hab : keepsNonempty a b) (hbc : keepsNonempty b c) : keepsNonempty a c := by
  refine ⟨fun h => ?_, fun h => ?_, fun h => ?_, fun h => ?_⟩
  · rw [hbc.1 (by rw [hab.1 h]; exact h), hab.1 h]
  · rw [hbc.2.1 (by rw [hab.2.1 h]; exact h), hab.2.1 h]
  · rw [hbc.2.2.1 (by rw [hab.2.2.1 h]; exact h), hab.2.2.1 h]
  · rw [hbc.2.2.2 (by rw [hab.2.2.2 h]; exact h), hab.2.2.2 h]

theorem mergeInfo_keeps (info new : Info) : keepsNonempty info (mergeInfo info new) := by
  refine ⟨fun h => ?_, fun h => ?_, fun h => ?_, fun h => ?_⟩ <;> simp [mergeInfo, h]

theorem foldl_mergeInfo_keeps {α : Type} (g : α → Info) (l : List α) (m : Info) :
    keepsNonempty m (l.foldl (fun acc x => mergeInfo acc (g x)) m) := by
  induction l generalizing m with
  | nil => exact keepsNonempty_refl m
  | cons x rest ih =>
    exact keepsNonempty_trans (mergeInfo_keeps m (g x)) (ih (mergeInfo m (g x)))

/-- C1 counterexample: the claim that a non-empty Address obtained from
the structured location element survives an empty Address from the Field
Extractor is false in `data_augmentation.py`.  On a page whose location
element yields "12 Fort Road, Delhi" but whose visible text "hello"
yields an empty Address, the merged PageInfo's Address is empty: line
154's `info.update(...)` overwrites the structured value. -/
theorem scrape_text_update_overwrites_structured_address :
    (extract_info (fun _ => none) "hello" "Delhi").Address = "" ∧
    (scrape_school_info (fun _ => none)
        (some { locText := some "12 Fort Road, Delhi", text := "hello", links := [] })
        "Delhi").Address = "" ∧
    (scrape_school_info (fun _ => none)
        (some { locText := some "12 Fort Road, Delhi", text := "hello", links := [] })
        "Delhi").Address ≠ "12 Fort Road, Delhi" :=
  ⟨rfl, rfl, by decide⟩

/-- C1 amended: first-non-empty-wins holds at the subpage-merge level
and at the cross-candidate-URL merge level (a non-empty field is never
overwritten there), but at the main-page step the full-text extraction
result replaces all four fields unconditionally, so the structured
location element never influences the returned PageInfo at all. -/
theorem merge_first_nonempty_wins_at_subpage_and_url_levels
    (info new : Info) (pm : String → Option String) (fetchEnv : String → Option Page)
    (state_ut : String) (urls : List String) (m : Info) (page : Page) (a : Option String) :
    ((info.District ≠ "" → (mergeInfo info new).District = info.District) ∧
     (info.Address ≠ "" → (mergeInfo info new).Address = info.Address) ∧
     (info.Tel ≠ "" → (mergeInfo info new).Tel = info.Tel) ∧
     (info.Email ≠ "" → (mergeInfo info new).Email = info.Email)) ∧
    ((m.District ≠ "" →
        (urls.foldl (fun acc url => mergeInfo acc (scrape_school_info pm (fetchEnv url) state_ut)) m).District = m.District) ∧
     (m.Address ≠ "" →
        (urls.foldl (fun acc url => mergeInfo acc (scrape_school_info pm (fetchEnv url) state_ut)) m).Address = m.Address) ∧
     (m.Tel ≠ "" →
        (urls.foldl (fun acc url => mergeInfo acc (scrape_school_info pm (fetchEnv url) state_ut)) m).Tel = m.Tel) ∧
     (m.Email ≠ "" →
        (urls.foldl (fun acc url => mergeInfo acc (scrape_school_info pm (fetchEnv url) state_ut)) m).Email = m.Email)) ∧
    scrape_school_info pm (some { page with locText := a }) state_ut =
      scrape_school_info pm (some page) state_ut := by
  refine ⟨mergeInfo_keeps info new,
    foldl_mergeInfo_keeps (fun url => scrape_school_info pm (fetchEnv url) state_ut) urls m, ?_⟩
  rfl

/-- C1 witness: the merge theorem applied at a concrete record with all
four fields non-empty. -/
theorem merge_first_nonempty_wins_witness :
    (mergeInfo ⟨"D", "A", "T", "E"⟩ ⟨"d2", "a2", "t2", "e2"⟩).District = "D" ∧
    (mergeInfo ⟨"D", "A", "T", "E"⟩ ⟨"d2", "a2", "t2", "e2"⟩).Address = "A" := by
  have h := merge_first_nonempty_wins_at_subpage_and_url_levels
    ⟨"D", "A", "T", "E"⟩ ⟨"d2", "a2", "t2", "e2"⟩ (fun _ => none) (fun _ => none)
    "" [] emptyInfo ⟨none, "", []⟩ none
  exact ⟨h.1.1 (by decide), h.1.2.1 (by decide)⟩

/-- C2 counterexample: the claim that the search retries only on a
transport error or non-2xx response is false.  A first attempt that
succeeds but yields no qualifying links is also retried: with attempts
`[ok [], ok ["http://a.com"]]` the loop consults the second attempt and
returns its link, whereas a run consisting only of the successful empty
attempt returns `[]`. -/
theorem search_retries_after_empty_success :
    search_school_websites [SearchAttempt.ok [], SearchAttempt.ok ["http://a.com"]] =
      ["http://a.com"] ∧
    search_school_websites [SearchAttempt.ok []] = [] :=
  ⟨rfl, rfl⟩

/-- C2 amended: the search retries (after the fixed backoff) both when
the request fails and when a successful response yields no qualifying
links; it returns the collection of the first attempt producing at least
one qualifying link, and the empty list — a normal non-error outcome —
after exhausting all attempts. -/
theorem search_returns_first_qualifying_attempt (attempts : List SearchAttempt) :
    search_school_websites attempts = ((attempts.filterMap attemptOutcome).head?).getD [] := by
  induction attempts with
  | nil => rfl
  | cons a rest ih =>
    cases a with
    | fail => simpa [search_school_websites, attemptOutcome, List.filterMap_cons] using ih
    | ok organic =>
      simp only [search_school_websites, attemptOutcome, List.filterMap_cons]
      by_cases h : collectWebsites organic [] = []
      · simp [h, ih]
      · simp [h]

/-- C3 counterexample: the claim that the duplicate check's identity
key is whitespace-collapsed is false.  "A  B" (two inner spaces) and
"A B" are equal under the spec's collapsed key, yet the duplicate check
does not report the second as already processed. -/
theorem dup_check_distinguishes_inner_whitespace :
    wsCollapseKey "A  B" = wsCollapseKey "A B" ∧
    is_already_processed [[("School", "A B"), ("State/UT", "X")]] "A  B" "X" = false :=
  ⟨rfl, rfl⟩

/-- C3 amended: the duplicate check treats two (school name, state)
pairs as the same identity exactly when both components are equal after
stripping outer whitespace and case-folding; internal whitespace runs
are not collapsed. -/
theorem dup_check_strip_casefold_iff (processed : List Row) (school state : String) :
    is_already_processed processed school state = true ↔
      ∃ r ∈ processed, normKey (rowGet r "School") = normKey school ∧
        normKey (rowGet r "State/UT") = normKey state := by
  simp [is_already_processed, List.any_eq_true]

/-! ### Collection-loop lemmas -/

theorem collectWebsites_length (organic : List String) :
    ∀ acc : List String, acc.length < 5 → (collectWebsites organic acc).length ≤ 5 := by
  induction organic with
  | nil => intro acc h; simpa [collectWebsites] using Nat.le_of_lt h
  | cons link rest ih =>
    intro acc h
    simp only [collectWebsites]
    by_cases hq : qualifies link
    · simp only [if_pos hq]
      by_cases h5 : (acc ++ [link]).length = 5
      · simp [h5]
      · rw [if_neg h5]
        apply ih
        have : (acc ++ [link]).length = acc.length + 1 := by simp
        omega
    · simp only [if_neg hq]
      by_cases h5 : acc.length = 5
      · omega
      · rw [if_neg h5]
        exact ih acc h

theorem collectWebsites_spec (organic : List String) :
    ∀ acc : List String, ∃ t, collectWebsites organic acc = acc ++ t ∧
      t.Sublist organic ∧ t.all qualifies = true := by
  induction organic with
  | nil => intro acc; exact ⟨[], by simp [collectWebsites], List.Sublist.refl [], rfl⟩
  | cons link rest ih =>
    intro acc
    simp only [collectWebsites]
    by_cases hq : qualifies link
    · simp only [if_pos hq]
      by_cases h5 : (acc ++ [link]).length = 5
      · refine ⟨[link], by simp [h5], ?_, by simp [hq]⟩
        exact (List.nil_sublist rest).cons₂ link
      · rw [if_neg h5]
        obtain ⟨t, ht, hs, hall⟩ := ih (acc ++ [link])
        refine ⟨link :: t, by simpa using ht, hs.cons₂ link, ?_⟩
        simp [hq, hall]
    · simp only [if_neg hq]
      by_cases h5 : acc.length = 5
      · exact ⟨[], by simp [h5], List.nil_sublist _, rfl⟩
      · rw [if_neg h5]
        obtain ⟨t, ht, hs, hall⟩ := ih acc
        exact ⟨t, ht, hs.cons link, hall⟩

/-- C5: the collection loop keeps a link only if it qualifies (truthy,
no denylisted substring, http(s)-schemed), preserves the response's
relative order (the result is a sublist), stops at 5 links, and on a
response holding one denylisted link followed by six valid ones returns
exactly the first five valid links in order. -/
theorem search_response_filter_spec (organic : List String) :
    (collectWebsites organic []).Sublist organic ∧
    (collectWebsites organic []).all qualifies = true ∧
    (collectWebsites organic []).length ≤ 5 ∧
    collectWebsites
      ["https://www.indiastudychannel.com/page", "http://a.com", "http://b.com",
       "http://c.com", "http://d.com", "http://e.com", "http://f.com"] [] =
      ["http://a.com", "http://b.com", "http://c.com", "http://d.com", "http://e.com"] := by
  obtain ⟨t, ht, hs, hall⟩ := collectWebsites_spec organic []
  simp only [List.nil_append] at ht
  subst ht
  exact ⟨hs, hall, collectWebsites_length organic [] (by simp), by rfl⟩

/-! ### Run-loop trace lemma -/

theorem runLoop_trace (pm : String → Option String) (searchEnv : Nat → List SearchAttempt)
    (fetchEnv : String → Option Page) (K : Nat) (rows : List Row) :
    ∀ (index : Nat) (st : List Row × List Nat),
      (runLoop pm searchEnv fetchEnv K index rows st).2 =
        st.2 ++ ((List.range' index rows.length).filter (fun i => decide (K ≤ i))) := by
  induction rows with
  | nil => intro index st; simp [runLoop]
  | cons row rest ih =>
    intro index st
    simp only [runLoop]
    by_cases h : index < K
    · rw [if_pos h, ih]
      have hnk : ¬(K ≤ index) := by omega
      simp [List.range'_succ, hnk]
    · rw [if_neg h, ih]
      have hk : K ≤ index := by omega
      simp [List.range'_succ, hk]

/-- C6: the resume skip is purely positional.  With K prior checkpoint
records and an N-row input, the row loop hands exactly the rows with
index in [K..N) to `process_school` — hence the website search is never
invoked for a row with index below K — independently of row contents. -/
theorem run_resume_is_positional (pm : String → Option String)
    (searchEnv : Nat → List SearchAttempt) (fetchEnv : String → Option Page)
    (initProcessed rows : List Row) :
    (run pm searchEnv fetchEnv initProcessed rows).2 =
      (List.range rows.length).filter (fun i => decide (initProcessed.length ≤ i)) := by
  unfold run
  rw [runLoop_trace]
  simp [List.range_eq_range']

/-- C7: the page scraper is fail-soft.  A failed fetch/parse of the
main page yields the all-empty PageInfo, and a failed subpage fetch
leaves the result exactly as if that subpage were absent. -/
theorem scrape_fail_soft (pm : String → Option String) (state_ut : String) :
    scrape_school_info pm none state_ut = emptyInfo ∧
    ∀ (page : Page) (pre post : List Subpage) (sp : Subpage), sp.fetched = none →
      scrape_school_info pm (some { page with links := pre ++ sp :: post }) state_ut =
        scrape_school_info pm (some { page with links := pre ++ post }) state_ut := by
  refine ⟨rfl, ?_⟩
  intro page pre post sp hsp
  simp only [scrape_school_info, List.foldl_append, List.foldl_cons]
  congr 1
  rw [hsp]
  cases h : isContactLink sp.href <;> simp [h]

/-- C7 witness: the fail-soft theorem at a failing main fetch and at a
page with one failing contact subpage. -/
theorem scrape_fail_soft_witness :
    scrape_school_info (fun _ => none) none "Delhi" = emptyInfo ∧
    scrape_school_info (fun _ => none)
        (some { locText := none, text := "t", links := [⟨"contact", none⟩] }) "Delhi" =
      scrape_school_info (fun _ => none)
        (some { locText := none, text := "t", links := [] }) "Delhi" := by
  have h := scrape_fail_soft (fun _ => none) "Delhi"
  exact ⟨h.1, h.2 ⟨none, "t", []⟩ [] [] ⟨"contact", none⟩ rfl⟩

/-- C8: under the richer district policy, when the first line matching
the district-keyword pattern is "North Delhi District, Government of
India", the boilerplate tokens are stripped, the line is split on
commas, and the last non-empty segment is title-cased, giving District
"North Delhi". -/
theorem district_rich_policy_boilerplate (pm : String → Option String)
    (text state_ut : String)
    (h : (splitLines text).find? (fun l => districtKeywordSearch l.data) =
      some "North Delhi District, Government of India") :
    (extract_info pm text state_ut).District = "North Delhi" := by
  simp only [extract_info, h]
  rfl

/-- C8 witness: the district theorem at the one-line text consisting of
exactly that district line. -/
theorem district_rich_policy_boilerplate_witness :
    ((splitLines "North Delhi District, Government of India").find?
        (fun l => districtKeywordSearch l.data) =
      some "North Delhi District, Government of India") ∧
    (extract_info (fun _ => none) "North Delhi District, Government of India" "Delhi").District =
      "North Delhi" := by
  have h : (splitLines "North Delhi District, Government of India").find?
      (fun l => districtKeywordSearch l.data) =
      some "North Delhi District, Government of India" := by rfl
  exact ⟨h, district_rich_policy_boilerplate (fun _ => none) _ "Delhi" h⟩

theorem simple_fold_keeps_empty_address (lines : List String) :
    ∀ ad : String × String, ((lines.foldl (simpleLineStep "") ad).1 = ad.1) := by
  induction lines with
  | nil => intro ad; rfl
  | cons line rest ih =>
    intro ad
    have hstep : (simpleLineStep "" ad line).1 = ad.1 := by
      simp [simpleLineStep, addressCand]
    simp only [List.foldl_cons]
    rw [ih (simpleLineStep "" ad line), hstep]

/-- C10: with an empty region hint no line qualifies as an address
candidate, so both extractor variants return an empty Address, and the
richer policy's address-based fallback cannot fire: a non-empty District
requires some line matching the district keyword pattern. -/
theorem empty_region_hint_empty_address (pm : String → Option String) (text : String) :
    (extract_info pm text "").Address = "" ∧
    (extract_info_simple pm text "").Address = "" ∧
    ((extract_info pm text "").District ≠ "" →
      ∃ l ∈ splitLines text, districtKeywordSearch l.data = true) := by
  have hcand : (splitLines text).filter (fun l => addressCand "" l) = [] := by
    simp [addressCand]
  refine ⟨?_, ?_, ?_⟩
  · simp only [extract_info, hcand]
    rfl
  · simp only [extract_info_simple]
    exact simple_fold_keeps_empty_address (splitLines text) ("", "")
  · intro hd
    cases hfind : (splitLines text).find? (fun l => districtKeywordSearch l.data) with
    | none =>
      exfalso
      apply hd
      simp only [extract_info, hfind, hcand]
    | some line =>
      exact ⟨line, List.mem_of_find?_eq_some hfind, by
        simpa using List.find?_some hfind⟩

/-- C10 witness: the empty-hint theorem at the text "East District",
whose District is non-empty via the keyword branch. -/
theorem empty_region_hint_empty_address_witness :
    (extract_info (fun _ => none) "East District" "").Address = "" ∧
    ∃ l ∈ splitLines "East District", districtKeywordSearch l.data = true := by
  have h := empty_region_hint_empty_address (fun _ => none) "East District"
  exact ⟨h.1, h.2.2 (by decide)⟩

/-- C4 counterexample: the claim that every roster row iterated by the
orchestrator appends exactly one record is false.  With one prior
checkpoint record, a two-row input whose second row carries the same
identity key is iterated (trace `[1]`) yet appends nothing: the
checkpoint list still holds exactly the one prior record. -/
theorem iterated_duplicate_row_appends_nothing :
    run (fun _ => none) (fun _ => []) (fun _ => none)
        [[("School", "Abc School"), ("State/UT", "Delhi")]]
        [[("School", "P"), ("State/UT", "Q")],
         [("School", "Abc School"), ("State/UT", "Delhi")]] =
      ([[("School", "Abc School"), ("State/UT", "Delhi")]], [1]) :=
  rfl

/-- C4 amended: the checkpoint list never shrinks — processing a row
appends at most one record: exactly one when the row's identity key is
not already present (including a row whose website search returns no
result, whose record has every enrichment field empty), and zero when
the duplicate check reports the row as already processed. -/
theorem process_school_appends_at_most_one (pm : String → Option String)
    (attempts : List SearchAttempt) (fetchEnv : String → Option Page)
    (processed : List Row) (row : Row) :
    ∃ tail, process_school pm attempts fetchEnv processed row = processed ++ tail ∧
      tail.length =
        (if is_already_processed processed (rowSchool row) (rowState row) then 0 else 1) ∧
      (is_already_processed processed (rowSchool row) (rowState row) = false →
        search_school_websites attempts = [] →
        ∀ f ∈ enrichmentFields, rowGet (tail.headD []) f = "") := by
  unfold process_school
  by_cases h : is_already_processed processed (rowSchool row) (rowState row) = true
  · refine ⟨[], by simp [h], by simp [h], ?_⟩
    intro hfalse
    rw [h] at hfalse
    exact absurd hfalse (by simp)
  · have hf : is_already_processed processed (rowSchool row) (rowState row) = false :=
      Bool.not_eq_true _ ▸ Bool.eq_false_iff.mpr h
    cases hs : search_school_websites attempts with
    | nil =>
      refine ⟨[rowUpdate row
          [("Website", ""), ("District", ""), ("Address", ""), ("Tel", ""), ("Email", "")]],
        by simp [hf, hs], by simp [hf], ?_⟩
      intro _ _ f hfm
      fin_cases hfm <;>
        simp [rowUpdate, rowGet_setKey]
    | cons w ws =>
      simp only [hf, Bool.false_eq_true, if_false]
      refine ⟨_, rfl, by simp, ?_⟩
      intro _ hcontra
      exact absurd hcontra (by simp)

/-- C4 witness: the append theorem applied at a fresh row with an empty
search trace: exactly one record is appended and its Email is empty. -/
theorem process_school_appends_at_most_one_witness :
    ∃ tail,
      process_school (fun _ => none) [] (fun _ => none) []
          [("School", "X"), ("State/UT", "Y")] = [] ++ tail ∧
      tail.length = 1 ∧ rowGet (tail.headD []) "Email" = "" := by
  obtain ⟨tail, h1, h2, h3⟩ := process_school_appends_at_most_one (fun _ => none) []
    (fun _ => none) [] [("School", "X"), ("State/UT", "Y")]
  have hf : is_already_processed []
      (rowSchool [("School", "X"), ("State/UT", "Y")])
      (rowState [("School", "X"), ("State/UT", "Y")]) = false := rfl
  refine ⟨tail, h1, ?_, h3 hf rfl "Email" (by decide)⟩
  rw [h2, hf]
  rfl

/-- C9: every column of the input row other than the five enrichment
fields appears in the appended record with its value unchanged. -/
theorem extra_columns_pass_through (pm : String → Option String)
    (attempts : List SearchAttempt) (fetchEnv : String → Option Page)
    (processed : List Row) (row : Row)
    (h : is_already_processed processed (rowSchool row) (rowState row) = false) :
    ∃ rec, process_school pm attempts fetchEnv processed row = processed ++ [rec] ∧
      ∀ k, k ∉ enrichmentFields → rowGet rec k = rowGet row k := by
  unfold process_school
  simp only [h, Bool.false_eq_true, if_false]
  have hne : ∀ k, k ∉ enrichmentFields →
      k ≠ "Website" ∧ k ≠ "District" ∧ k ≠ "Address" ∧ k ≠ "Tel" ∧ k ≠ "Email" := by
    intro k hk
    simp only [enrichmentFields, List.mem_cons, List.not_mem_nil, or_false] at hk
    push_neg at hk
    exact hk
  cases hs : search_school_websites attempts with
  | nil =>
    refine ⟨_, rfl, ?_⟩
    intro k hk
    obtain ⟨h1, h2, h3, h4, h5⟩ := hne k hk
    simp [rowUpdate, rowGet_setKey, h1, h2, h3, h4, h5]
  | cons w ws =>
    refine ⟨_, rfl, ?_⟩
    intro k hk
    obtain ⟨h1, h2, h3, h4, h5⟩ := hne k hk
    simp [rowUpdate, rowGet_setKey, h1, h2, h3, h4, h5]

/-- C9 witness: an extra "City" column passes through untouched on the
no-website path. -/
theorem extra_columns_pass_through_witness :
    ∃ rec, process_school (fun _ => none) [] (fun _ => none) []
        [("School", "X"), ("State/UT", "Y"), ("City", "Pune")] = [] ++ [rec] ∧
      rowGet rec "City" = "Pune" := by
  obtain ⟨rec, h1, h2⟩ := extra_columns_pass_through (fun _ => none) [] (fun _ => none) []
    [("School", "X"), ("State/UT", "Y"), ("City", "Pune")] rfl
  refine ⟨rec, h1, ?_⟩
  rw [h2 "City" (by decide)]
  rfl
